import Mathlib

/-!
Verification of the Trust Credential Engine of `verana-labs/vs-agent`.

The visible source surface is the NestJS transport controller
`src/apps/vs-agent/src/controllers/admin/verifiable/TrustController.ts`,
which delegates every operation to `TrustService`.  The controller is
embedded directly; the `TrustService` operations it delegates to are not
part of the visible sources, so they are modelled from the specification
(each such definition carries a doc comment starting `Modelled from the
spec:`).  States are explicit; every operation returns the next state
together with an `Except` result.
-/

namespace VsAgent

/-- Error taxonomy of the Trust Credential Engine (spec section 7). -/
inductive TrustError where
  | notFound
  | issuerMismatch
  | validationUnavailable
  | schemaNotFound
  | issuanceFailed
  deriving DecidableEq, Repr

/-- A Verifiable Trust JSON Schema Credential record (spec section 3). -/
structure VTJSC where
  id : String
  schemaBaseId : String
  jsonSchemaRef : String
  issuerDid : String
  createdAt : Nat
  updatedAt : Nat
  deriving DecidableEq, Repr

/-- Credential format flag: AnonCreds exchange flow or JSON-LD signed document. -/
inductive CredFormat where
  | anoncreds
  | jsonld
  deriving DecidableEq, Repr

/-- A Verifiable Trust Credential record (spec section 3).
`payload` is the format-dependent content: the signed document for
`jsonld`, the out-of-band invitation for `anoncreds`. -/
structure VTC where
  id : String
  schemaId : String
  format : CredFormat
  payload : String
  createdAt : Nat
  deriving DecidableEq, Repr

/-- The persistent state: the two collections of the Trust Credential
Store, each in stable insertion order (spec section 4.1). -/
structure TrustState where
  vtjsc : List VTJSC
  vtc : List VTC
  deriving DecidableEq, Repr

/-- External environment of the engine: the agent's base URL and own DID,
the Ledger Resolver oracle, and the two issuance capabilities
(spec section 6).  `signJsonLd` yields `(documentId, signedDocument)`;
`initiateAnonCredsIssuance` yields `(invitation, exchangeId)`. -/
structure Env where
  baseUrl : String
  agentDid : String
  resolveSchemaIssuer : String → Option String
  signJsonLd : Option String → List (String × String) → Except Unit (String × String)
  initiateAnonCredsIssuance : String → List (String × String) → Except Unit (String × String)

/-- Model of JavaScript `String.prototype.toLocaleLowerCase` as used at
TrustController.ts:221 and TrustController.ts:354: character-wise lowering. -/
def toLocaleLowerCase (s : String) : String :=
  ⟨s.data.map Char.toLower⟩

/-- Modelled from the spec: the VTJSC `id` derivation inside the missing
`TrustService` — a deterministic URL of shape
`<baseUrl>/vt/schemas-<schemaBaseId>-jsc.json` (spec section 3 and the
controller's API description at TrustController.ts:319). -/
def deriveJscId (env : Env) (base : String) : String :=
  env.baseUrl ++ "/vt/schemas-" ++ base ++ "-jsc.json"

/-- Modelled from the spec: the VTC schema-URL derivation inside the missing
`TrustService` — `<baseUrl>/vt/schemas-<schemaBaseId>-c-vp.json`
(controller's API description at TrustController.ts:178). -/
def deriveVtcId (env : Env) (base : String) : String :=
  env.baseUrl ++ "/vt/schemas-" ++ base ++ "-c-vp.json"

/-- Lookup of a stored VTJSC by its `id` (primary key, spec section 4.1). -/
def findJsc (st : TrustState) (schemaId : String) : Option VTJSC :=
  st.vtjsc.find? (fun r => r.id == schemaId)

/-- Lookup of a stored VTC by its `schemaId` key, as queried by the
`linked-credentials` endpoints (TrustController.ts:119, 157). -/
def findVtc (st : TrustState) (schemaId : String) : Option VTC :=
  st.vtc.find? (fun c => c.schemaId == schemaId)

/-- Modelled from the spec: the Pagination Engine of the missing
`TrustService` (spec section 4.4) — pure slice
`sequence[(page-1)*limit : page*limit]` plus total count, with invalid
(≤ 0) `page`/`limit` clamped to the defaults 1 and 10 (spec section 4.1). -/
def paginate {α : Type} (seq : List α) (page limit : Int) : List α × Nat :=
  let p := if page ≤ 0 then 1 else page
  let l := if limit ≤ 0 then 10 else limit
  ((seq.drop ((p - 1) * l).toNat).take l.toNat, seq.length)

/-- Result of a `get` endpoint: a single record or one page plus total count. -/
inductive GetResult (α : Type) where
  | single : α → GetResult α
  | page : List α → Nat → GetResult α
  deriving DecidableEq, Repr

namespace TrustService

/-- Modelled from the spec: `TrustService.createJsc`, delegated to by
TrustController.ts:353-355 but not under the visible sources.  Per spec
section 4.2: derives the id, queries the Resolver for the Ecosystem DID
that registered `jsonSchemaRef`; if it differs from the agent's own DID,
fails with `IssuerMismatch`; otherwise upserts the VTJSC (create if
absent, else update `jsonSchemaRef`/`updatedAt` preserving `id`). -/
def createJsc (env : Env) (now : Nat) (schemaBaseId jsonSchemaRef : String)
    (st : TrustState) : TrustState × Except TrustError VTJSC :=
  let id := deriveJscId env schemaBaseId
  match env.resolveSchemaIssuer jsonSchemaRef with
  | none => (st, .error .validationUnavailable)
  | some d =>
    if d = env.agentDid then
      match st.vtjsc.find? (fun r => r.id == id) with
      | some r0 =>
        ({ st with vtjsc := st.vtjsc.map (fun r =>
            if r.id == id then { r with jsonSchemaRef := jsonSchemaRef, updatedAt := now }
            else r) },
         .ok { r0 with jsonSchemaRef := jsonSchemaRef, updatedAt := now })
      | none =>
        let r : VTJSC :=
          { id := id, schemaBaseId := schemaBaseId, jsonSchemaRef := jsonSchemaRef,
            issuerDid := env.agentDid, createdAt := now, updatedAt := now }
        ({ st with vtjsc := st.vtjsc ++ [r] }, .ok r)
    else (st, .error .issuerMismatch)

/-- Modelled from the spec: `TrustService.removeJsonSchemaCredential`,
delegated to by TrustController.ts:308-310.  Per spec section 4.2: fails
with `NotFound` if the VTJSC is absent; on success deletes the VTJSC and
every VTC whose `schemaId` matches (cascade), in the same operation. -/
def removeJsonSchemaCredential (schemaId : String) (st : TrustState) :
    TrustState × Except TrustError Unit :=
  if st.vtjsc.any (fun r => r.id == schemaId) then
    ({ vtjsc := st.vtjsc.filter (fun r => ¬ r.id == schemaId),
       vtc := st.vtc.filter (fun c => ¬ c.schemaId == schemaId) }, .ok ())
  else (st, .error .notFound)

/-- Modelled from the spec: `TrustService.issueCredential`, delegated to by
TrustController.ts:65-68.  Per spec section 4.3: resolves the VTJSC by
`jsonSchemaCredentialId` (fails with `SchemaNotFound` if absent), branches
on `format` into the JSON-LD signing path or the AnonCreds exchange path,
surfaces a capability failure as `IssuanceFailed` with no VTC persisted,
and on success persists the VTC keyed by the format-appropriate id. -/
def issueCredential (env : Env) (now : Nat) (format : CredFormat)
    (jsonSchemaCredentialId : String) (claims : List (String × String))
    (did : Option String) (st : TrustState) : TrustState × Except TrustError VTC :=
  match findJsc st jsonSchemaCredentialId with
  | none => (st, .error .schemaNotFound)
  | some _ =>
    match format with
    | .jsonld =>
      match env.signJsonLd did claims with
      | .error _ => (st, .error .issuanceFailed)
      | .ok (docId, doc) =>
        let c : VTC :=
          { id := docId, schemaId := jsonSchemaCredentialId, format := .jsonld,
            payload := doc, createdAt := now }
        ({ st with vtc := st.vtc ++ [c] }, .ok c)
    | .anoncreds =>
      match env.initiateAnonCredsIssuance jsonSchemaCredentialId claims with
      | .error _ => (st, .error .issuanceFailed)
      | .ok (invitation, exchangeId) =>
        let c : VTC :=
          { id := exchangeId, schemaId := jsonSchemaCredentialId, format := .anoncreds,
            payload := invitation, createdAt := now }
        ({ st with vtc := st.vtc ++ [c] }, .ok c)

/-- Modelled from the spec: `TrustService.getJsonSchemaCredential`,
delegated to by TrustController.ts:268-274.  A present `schemaId` returns
the single record or `NotFound`; an omitted one returns a paginated
listing (spec section 4.2). -/
def getJsonSchemaCredential (schemaId : Option String) (page limit : Int)
    (st : TrustState) : Except TrustError (GetResult VTJSC) :=
  match schemaId with
  | some sid =>
    match findJsc st sid with
    | some r => .ok (.single r)
    | none => .error .notFound
  | none =>
    let pl := paginate st.vtjsc page limit
    .ok (.page pl.1 pl.2)

/-- Modelled from the spec: `TrustService.getVerifiableTrustCredential`,
delegated to by TrustController.ts:118-124.  A present `schemaId` returns
the single record or `NotFound`; an omitted one returns a paginated
listing (spec sections 4.1 and 6). -/
def getVerifiableTrustCredential (schemaId : Option String) (page limit : Int)
    (st : TrustState) : Except TrustError (GetResult VTC) :=
  match schemaId with
  | some sid =>
    match findVtc st sid with
    | some c => .ok (.single c)
    | none => .error .notFound
  | none =>
    let pl := paginate st.vtc page limit
    .ok (.page pl.1 pl.2)

/-- Modelled from the spec: `TrustService.createVtc`, delegated to by
TrustController.ts:219-225 — stores the supplied signed W3C credential as
a VTC under the schema URL derived from the normalized `schemaBaseId`
(spec section 6, `createTrustCredential`). -/
def createVtc (env : Env) (now : Nat) (schemaBaseId : String) (credential : String)
    (st : TrustState) : TrustState × VTC :=
  let c : VTC :=
    { id := deriveVtcId env schemaBaseId, schemaId := deriveVtcId env schemaBaseId,
      format := .jsonld, payload := credential, createdAt := now }
  ({ st with vtc := st.vtc ++ [c] }, c)

end TrustService

namespace TrustController

/-- `TrustController.createJsc` (TrustController.ts:353-355): lower-cases
`schemaBaseId` and delegates to the service. -/
def createJsc (env : Env) (now : Nat) (schemaBaseId jsonSchemaRef : String)
    (st : TrustState) : TrustState × Except TrustError VTJSC :=
  TrustService.createJsc env now (toLocaleLowerCase schemaBaseId) jsonSchemaRef st

/-- `TrustController.createVtc` (TrustController.ts:219-225): lower-cases
`schemaBaseId` and delegates to the service. -/
def createVtc (env : Env) (now : Nat) (schemaBaseId : String) (credential : String)
    (st : TrustState) : TrustState × VTC :=
  TrustService.createVtc env now (toLocaleLowerCase schemaBaseId) credential st

/-- An HTTP exception as thrown by the controller (`HttpException`). -/
structure HttpError where
  status : Nat
  message : String
  deriving DecidableEq, Repr

/-- `TrustController.revokeCredential` (TrustController.ts:74-76):
unconditionally throws `HttpException({message}, HttpStatus.NOT_IMPLEMENTED)`
— status 501 — without touching the service or the store. -/
def revokeCredential (st : TrustState) : TrustState × Except HttpError Unit :=
  (st, .error { status := 501, message := "This method is not implemented yet" })

end TrustController

/-- Claim C1: when the Resolver reports an Ecosystem DID different from the
agent's own DID, `createJsc` fails with `IssuerMismatch` and the state —
in particular the VTJSC collection — is unchanged. -/
theorem claim_C1 (env : Env) (now : Nat) (base ref : String) (st : TrustState)
    (d : String) (hres : env.resolveSchemaIssuer ref = some d)
    (hne : d ≠ env.agentDid) :
    TrustController.createJsc env now base ref st = (st, .error .issuerMismatch) := by
  simp [TrustController.createJsc, TrustService.createJsc, hres, hne]

/-- A concrete environment whose Resolver reports a foreign Ecosystem DID
and whose capabilities fail, used by witness instantiations. -/
def envBad : Env :=
  { baseUrl := "https://a.example", agentDid := "did:web:me",
    resolveSchemaIssuer := fun _ => some "did:web:other",
    signJsonLd := fun _ _ => .error (),
    initiateAnonCredsIssuance := fun _ _ => .error () }

/-- A concrete environment whose Resolver reports the agent's own DID and
whose capabilities succeed, used by witness instantiations. -/
def envGood : Env :=
  { baseUrl := "https://a.example", agentDid := "did:web:me",
    resolveSchemaIssuer := fun _ => some "did:web:me",
    signJsonLd := fun _ _ => .ok ("https://a.example/doc/1", "signed-doc"),
    initiateAnonCredsIssuance := fun _ _ => .ok ("invitation-payload", "exch-1") }

/-- The empty store, used by witness instantiations. -/
def stEmpty : TrustState := { vtjsc := [], vtc := [] }

/-- A concrete stored VTJSC, used by witness instantiations. -/
def jscW : VTJSC := ⟨"S", "s", "ref", "did:web:me", 0, 0⟩

/-- A store holding one VTJSC and no VTC, used by witness instantiations. -/
def stW1 : TrustState := { vtjsc := [jscW], vtc := [] }

/-- A store holding one VTJSC with id `S`, one VTC referencing `S` and one
VTC referencing another schema, used by witness instantiations. -/
def stW2 : TrustState :=
  { vtjsc := [jscW],
    vtc := [⟨"c1", "S", .jsonld, "p", 0⟩, ⟨"c2", "T", .anoncreds, "q", 0⟩] }

theorem claim_C1_witness :
    envBad.resolveSchemaIssuer "vpr:ref" = some "did:web:other" ∧
    "did:web:other" ≠ envBad.agentDid ∧
    TrustController.createJsc envBad 5 "Org" "vpr:ref" stEmpty
      = (stEmpty, .error .issuerMismatch) :=
  ⟨rfl, by decide,
   claim_C1 envBad 5 "Org" "vpr:ref" stEmpty "did:web:other" rfl (by decide)⟩

/-- Claim C3: `issueCredential` with a `jsonSchemaCredentialId` that does not
identify a stored VTJSC always fails with `SchemaNotFound`, for every
format, claims and optional did, and the state (hence the VTC collection)
is unchanged. -/
theorem claim_C3 (env : Env) (now : Nat) (format : CredFormat) (jscId : String)
    (claims : List (String × String)) (did : Option String) (st : TrustState)
    (habsent : findJsc st jscId = none) :
    TrustService.issueCredential env now format jscId claims did st
      = (st, .error .schemaNotFound) := by
  simp [TrustService.issueCredential, habsent]

theorem claim_C3_witness :
    findJsc stW2 "missing" = none ∧
    TrustService.issueCredential envGood
      7 .jsonld "missing" [("name", "x")] (some "did:web:me") stW2
      = (stW2, .error .schemaNotFound) :=
  ⟨by decide,
   claim_C3 envGood 7 .jsonld "missing" [("name", "x")] (some "did:web:me") stW2 (by decide)⟩

/-- After a cascade delete of `S`, every remaining VTC has a different
`schemaId`. -/
lemma remove_vtc_mem (S : String) (st : TrustState) (c : VTC)
    (hc : c ∈ (st.vtc.filter (fun c => ¬ c.schemaId == S))) : c.schemaId ≠ S := by
  have := (List.mem_filter.mp hc).2
  simpa using this

/-- Claim C2: `removeJsonSchemaCredential S` fails with `NotFound` when `S`
is absent (state unchanged); on success it deletes the VTJSC and every VTC
whose `schemaId` equals `S` in the same operation, and afterwards no VTC
referencing `S` is retrievable by lookup or by any paginated listing. -/
theorem claim_C2 (S : String) (st : TrustState) :
    (findJsc st S = none →
      TrustService.removeJsonSchemaCredential S st = (st, .error .notFound)) ∧
    (findJsc st S ≠ none →
      (TrustService.removeJsonSchemaCredential S st).2 = .ok () ∧
      findJsc (TrustService.removeJsonSchemaCredential S st).1 S = none ∧
      (∀ c ∈ (TrustService.removeJsonSchemaCredential S st).1.vtc, c.schemaId ≠ S) ∧
      (∀ sid c, findVtc (TrustService.removeJsonSchemaCredential S st).1 sid = some c →
        c.schemaId ≠ S) ∧
      (∀ page limit c,
        c ∈ (paginate (TrustService.removeJsonSchemaCredential S st).1.vtc page limit).1 →
        c.schemaId ≠ S)) := by
  constructor
  · intro habs
    have hany : st.vtjsc.any (fun r => r.id == S) = false := by
      rw [List.any_eq_false]
      intro r hr
      have := List.find?_eq_none.mp habs r hr
      simpa using this
    simp [TrustService.removeJsonSchemaCredential, hany]
  · intro hpres
    obtain ⟨r0, hr0⟩ : ∃ r, findJsc st S = some r := by
      cases h : findJsc st S with
      | none => exact absurd h hpres
      | some r => exact ⟨r, rfl⟩
    have hr0' : List.find? (fun r => r.id == S) st.vtjsc = some r0 := hr0
    have hany : st.vtjsc.any (fun r => r.id == S) = true := by
      rw [List.any_eq_true]
      have hp := List.find?_some hr0'
      exact ⟨r0, List.mem_of_find?_eq_some hr0', hp⟩
    have hstep : TrustService.removeJsonSchemaCredential S st =
        ({ vtjsc := st.vtjsc.filter (fun r => ¬ r.id == S),
           vtc := st.vtc.filter (fun c => ¬ c.schemaId == S) }, .ok ()) := by
      simp [TrustService.removeJsonSchemaCredential, hany]
    rw [hstep]
    refine ⟨rfl, ?_, ?_, ?_, ?_⟩
    · simp only [findJsc]
      rw [List.find?_eq_none]
      intro r hr
      have := (List.mem_filter.mp hr).2
      simpa using this
    · intro c hc
      exact remove_vtc_mem S st c hc
    · intro sid c hc
      have hc' : List.find? (fun x => x.schemaId == sid)
          (st.vtc.filter (fun c => ¬ c.schemaId == S)) = some c := hc
      exact remove_vtc_mem S st c (List.mem_of_find?_eq_some hc')
    · intro page limit c hc
      exact remove_vtc_mem S st c (List.mem_of_mem_drop (List.mem_of_mem_take hc))

theorem claim_C2_witness :
    (findJsc stW2 "S" ≠ none) ∧
    ((TrustService.removeJsonSchemaCredential "S" stW2).2 = .ok () ∧
     findJsc (TrustService.removeJsonSchemaCredential "S" stW2).1 "S" = none ∧
     (∀ c ∈ (TrustService.removeJsonSchemaCredential "S" stW2).1.vtc, c.schemaId ≠ "S") ∧
     (∀ sid c, findVtc (TrustService.removeJsonSchemaCredential "S" stW2).1 sid = some c →
        c.schemaId ≠ "S") ∧
     (∀ page limit c,
        c ∈ (paginate (TrustService.removeJsonSchemaCredential "S" stW2).1.vtc page limit).1 →
        c.schemaId ≠ "S")) :=
  ⟨by decide, (claim_C2 "S" stW2).2 (by decide)⟩

/-- In a list with some member whose `id` is `id`, updating every matching
record's `jsonSchemaRef`/`updatedAt` leaves a findable record with the new
values. -/
lemma find?_map_update (l : List VTJSC) (id ref : String) (now : Nat)
    (h : ∃ r ∈ l, r.id = id) :
    ∃ r', (l.map (fun r =>
        if r.id == id then { r with jsonSchemaRef := ref, updatedAt := now } else r)).find?
          (fun r => r.id == id) = some r'
      ∧ r'.id = id ∧ r'.jsonSchemaRef = ref ∧ r'.updatedAt = now := by
  induction l with
  | nil => simp at h
  | cons a t ih =>
    by_cases ha : a.id = id
    · refine ⟨{ a with jsonSchemaRef := ref, updatedAt := now }, ?_, ha, rfl, rfl⟩
      simp [List.find?_cons, ha]
    · obtain ⟨r, hr, hrid⟩ := h
      rcases List.mem_cons.mp hr with rfl | hmem
      · exact absurd hrid ha
      · obtain ⟨r', hfind, hid, href, hupd⟩ := ih ⟨r, hmem, hrid⟩
        refine ⟨r', ?_, hid, href, hupd⟩
        rw [List.map_cons, List.find?_cons_of_neg]
        · exact hfind
        · simp [ha]

/-- Successful `createJsc` (Resolver reports the agent's own DID): the call
returns `.ok` with a record carrying the derived id, the supplied
`jsonSchemaRef` and `updatedAt = now`, and afterwards lookup by the
derived id finds such a record. -/
lemma createJsc_ok (env : Env) (now : Nat) (base ref : String) (st : TrustState)
    (hres : env.resolveSchemaIssuer ref = some env.agentDid) :
    ∃ r, (TrustService.createJsc env now base ref st).2 = .ok r
      ∧ r.id = deriveJscId env base ∧ r.jsonSchemaRef = ref ∧ r.updatedAt = now
      ∧ ∃ r', findJsc (TrustService.createJsc env now base ref st).1
            (deriveJscId env base) = some r'
          ∧ r'.id = deriveJscId env base ∧ r'.jsonSchemaRef = ref ∧ r'.updatedAt = now := by
  cases hfind : st.vtjsc.find? (fun r => r.id == deriveJscId env base) with
  | some r0 =>
    have hr0 : r0.id = deriveJscId env base := by
      have := List.find?_some hfind
      simpa using this
    have hmem : r0 ∈ st.vtjsc := List.mem_of_find?_eq_some hfind
    obtain ⟨r', hfind', hid, href, hupd⟩ :=
      find?_map_update st.vtjsc (deriveJscId env base) ref now ⟨r0, hmem, hr0⟩
    refine ⟨{ r0 with jsonSchemaRef := ref, updatedAt := now }, ?_, hr0, rfl, rfl,
      r', ?_, hid, href, hupd⟩
    · simp [TrustService.createJsc, hres, hfind]
    · simpa [TrustService.createJsc, findJsc, hres, hfind] using hfind'
  | none =>
    refine ⟨⟨deriveJscId env base, base, ref, env.agentDid, now, now⟩, ?_, rfl, rfl, rfl,
      ⟨deriveJscId env base, base, ref, env.agentDid, now, now⟩, ?_, rfl, rfl, rfl⟩
    · simp [TrustService.createJsc, hres, hfind]
    · simp [TrustService.createJsc, findJsc, hres, hfind, List.find?_append,
        List.find?_cons]

/-- Claim C4: when the Resolver reports the agent's own DID for
`jsonSchemaRef`, `createJsc` succeeds and a subsequent lookup by the id
derived from the (normalized) `schemaBaseId` returns a VTJSC whose
`jsonSchemaRef` equals the one supplied. -/
theorem claim_C4 (env : Env) (now : Nat) (base ref : String) (st : TrustState)
    (hres : env.resolveSchemaIssuer ref = some env.agentDid) :
    (∃ r, (TrustController.createJsc env now base ref st).2 = .ok r)
      ∧ ∃ r', findJsc (TrustController.createJsc env now base ref st).1
            (deriveJscId env (toLocaleLowerCase base)) = some r'
          ∧ r'.jsonSchemaRef = ref := by
  obtain ⟨r, hok, -, -, -, r', hfind, -, href, -⟩ :=
    createJsc_ok env now (toLocaleLowerCase base) ref st hres
  exact ⟨⟨r, hok⟩, r', hfind, href⟩

theorem claim_C4_witness :
    envGood.resolveSchemaIssuer "vpr:ref" = some envGood.agentDid ∧
    ((∃ r, (TrustController.createJsc envGood 5 "Org" "vpr:ref" stEmpty).2 = .ok r)
      ∧ ∃ r', findJsc (TrustController.createJsc envGood 5 "Org" "vpr:ref" stEmpty).1
            (deriveJscId envGood (toLocaleLowerCase "Org")) = some r'
          ∧ r'.jsonSchemaRef = "vpr:ref") :=
  ⟨rfl, claim_C4 envGood 5 "Org" "vpr:ref" stEmpty rfl⟩

/-- The predicate of spec section 4.3's failure policy: the external
capability relevant to the requested format fails. -/
def capabilityFails (env : Env) (format : CredFormat) (jscId : String)
    (claims : List (String × String)) (did : Option String) : Prop :=
  match format with
  | .jsonld => env.signJsonLd did claims = .error ()
  | .anoncreds => env.initiateAnonCredsIssuance jscId claims = .error ()

/-- Claim C5: on an issuance request against an existing VTJSC, a failure of
the signing capability (jsonld) or the exchange-initiation capability
(anoncreds) surfaces as `IssuanceFailed` and the state — in particular the
VTC collection — is unchanged. -/
theorem claim_C5 (env : Env) (now : Nat) (format : CredFormat) (jscId : String)
    (claims : List (String × String)) (did : Option String) (st : TrustState) (r : VTJSC)
    (hfound : findJsc st jscId = some r)
    (hfail : capabilityFails env format jscId claims did) :
    TrustService.issueCredential env now format jscId claims did st
      = (st, .error .issuanceFailed) := by
  cases format <;>
    simp only [capabilityFails] at hfail <;>
    simp [TrustService.issueCredential, hfound, hfail]

theorem claim_C5_witness :
    findJsc stW1 "S" = some jscW ∧
    capabilityFails envBad .jsonld "S" [("name", "x")] (some "did:web:me") ∧
    TrustService.issueCredential envBad 9 .jsonld "S" [("name", "x")] (some "did:web:me") stW1
      = (stW1, .error .issuanceFailed) :=
  ⟨by decide, rfl,
   claim_C5 envBad 9 .jsonld "S" [("name", "x")] (some "did:web:me") stW1 jscW
     (by decide) rfl⟩

/-- A successful `createJsc` whose derived id is already present updates in
place: the VTJSC collection keeps its length. -/
lemma createJsc_update_length (env : Env) (now : Nat) (base ref : String) (st : TrustState)
    (hres : env.resolveSchemaIssuer ref = some env.agentDid)
    (hpres : findJsc st (deriveJscId env base) ≠ none) :
    ((TrustService.createJsc env now base ref st).1.vtjsc).length = st.vtjsc.length := by
  cases hfind : st.vtjsc.find? (fun r => r.id == deriveJscId env base) with
  | none => exact absurd hfind hpres
  | some r0 => simp [TrustService.createJsc, hres, hfind]

/-- Claim C7: two successive `createJsc` calls with identical valid inputs
yield records with the same derived id, the second call does not create a
second record (the VTJSC count after the second call equals the count
after the first), and the second call bumps `updatedAt`. -/
theorem claim_C7 (env : Env) (now₁ now₂ : Nat) (base ref : String) (st : TrustState)
    (hres : env.resolveSchemaIssuer ref = some env.agentDid) :
    ∃ r₁ r₂,
      (TrustController.createJsc env now₁ base ref st).2 = .ok r₁ ∧
      (TrustController.createJsc env now₂ base ref
        (TrustController.createJsc env now₁ base ref st).1).2 = .ok r₂ ∧
      r₂.id = r₁.id ∧ r₂.updatedAt = now₂ ∧
      ((TrustController.createJsc env now₂ base ref
          (TrustController.createJsc env now₁ base ref st).1).1.vtjsc).length
        = ((TrustController.createJsc env now₁ base ref st).1.vtjsc).length := by
  obtain ⟨r₁, hok₁, hid₁, -, -, r', hfind', -, -, -⟩ :=
    createJsc_ok env now₁ (toLocaleLowerCase base) ref st hres
  obtain ⟨r₂, hok₂, hid₂, -, hupd₂, -⟩ :=
    createJsc_ok env now₂ (toLocaleLowerCase base) ref
      (TrustService.createJsc env now₁ (toLocaleLowerCase base) ref st).1 hres
  refine ⟨r₁, r₂, hok₁, hok₂, by rw [hid₂, hid₁], hupd₂, ?_⟩
  exact createJsc_update_length env now₂ (toLocaleLowerCase base) ref
    (TrustService.createJsc env now₁ (toLocaleLowerCase base) ref st).1 hres
    (by rw [hfind']; exact fun h => Option.noConfusion h)

theorem claim_C7_witness :
    envGood.resolveSchemaIssuer "vpr:ref" = some envGood.agentDid ∧
    (∃ r₁ r₂,
      (TrustController.createJsc envGood 1 "Org" "vpr:ref" stEmpty).2 = .ok r₁ ∧
      (TrustController.createJsc envGood 2 "Org" "vpr:ref"
        (TrustController.createJsc envGood 1 "Org" "vpr:ref" stEmpty).1).2 = .ok r₂ ∧
      r₂.id = r₁.id ∧ r₂.updatedAt = 2 ∧
      ((TrustController.createJsc envGood 2 "Org" "vpr:ref"
          (TrustController.createJsc envGood 1 "Org" "vpr:ref" stEmpty).1).1.vtjsc).length
        = ((TrustController.createJsc envGood 1 "Org" "vpr:ref" stEmpty).1.vtjsc).length) :=
  ⟨rfl, claim_C7 envGood 1 2 "Org" "vpr:ref" stEmpty rfl⟩

/-- Fixed-size page slices, concatenated over the first `k` pages,
reproduce the first `k * l` elements of the sequence. -/
lemma flatMap_range_take_drop {α : Type} (l : Nat) (seq : List α) (k : Nat) :
    (List.range k).flatMap (fun i => (seq.drop (i * l)).take l) = seq.take (k * l) := by
  induction k with
  | zero => simp
  | succ k ih =>
    rw [List.range_succ, List.flatMap_append, ih, Nat.succ_mul, List.take_add]
    simp

/-- `paginate` with positive arguments is the plain slice. -/
lemma paginate_pos {α : Type} (seq : List α) (page limit : Int)
    (hp : 0 < page) (hl : 0 < limit) :
    paginate seq page limit
      = ((seq.drop ((page - 1) * limit).toNat).take limit.toNat, seq.length) := by
  have hp' : ¬ page ≤ 0 := not_le.mpr hp
  have hl' : ¬ limit ≤ 0 := not_le.mpr hl
  simp [paginate, hp', hl']

/-- Claim C6: for positive `page` and `limit`, `paginate` returns exactly
the slice `sequence[(page-1)*limit : page*limit]` with `totalCount` the
full length; pages `1..ceil(M/10)` at limit 10 concatenate back to the
whole sequence (each record exactly once, stable order, no duplicates or
gaps); and a page past the last yields an empty slice rather than an
error. -/
theorem claim_C6 (seq : List Nat) (page limit : Int) (hp : 0 < page) (hl : 0 < limit) :
    paginate seq page limit
        = ((seq.drop ((page - 1) * limit).toNat).take limit.toNat, seq.length)
      ∧ (List.range ((seq.length + 9) / 10)).flatMap
          (fun i => (paginate seq ((i : Int) + 1) 10).1) = seq
      ∧ ((seq.length : Int) ≤ (page - 1) * limit → (paginate seq page limit).1 = []) := by
  refine ⟨paginate_pos seq page limit hp hl, ?_, ?_⟩
  · have hfun : ∀ i : Nat, (paginate seq ((i : Int) + 1) 10).1 = (seq.drop (i * 10)).take 10 := by
      intro i
      have h1 : (0 : Int) < (i : Int) + 1 := by positivity
      rw [paginate_pos seq ((i : Int) + 1) 10 h1 (by norm_num)]
      have h2 : (((i : Int) + 1 - 1) * 10).toNat = i * 10 := by
        have h3 : ((i : Int) + 1 - 1) * 10 = ((i * 10 : Nat) : Int) := by push_cast; ring
        rw [h3, Int.toNat_natCast]
      rw [h2]
      rfl
    simp only [hfun]
    rw [flatMap_range_take_drop]
    exact List.take_of_length_le (by omega)
  · intro hpast
    rw [paginate_pos seq page limit hp hl]
    have h1 : seq.length ≤ ((page - 1) * limit).toNat := by
      have := Int.toNat_le_toNat hpast
      simpa using this
    simp [List.drop_eq_nil_of_le h1]

theorem claim_C6_witness :
    (0 : Int) < 4 ∧ (0 : Int) < 2 ∧
    (paginate [10, 11, 12] (4 : Int) (2 : Int)
        = (([10, 11, 12].drop (((4 : Int) - 1) * 2).toNat).take (2 : Int).toNat, 3)
      ∧ (List.range (([10, 11, 12].length + 9) / 10)).flatMap
          (fun i => (paginate [10, 11, 12] ((i : Int) + 1) 10).1) = [10, 11, 12]
      ∧ (([10, 11, 12].length : Int) ≤ ((4 : Int) - 1) * 2 →
          (paginate [10, 11, 12] (4 : Int) (2 : Int)).1 = [])) :=
  ⟨by decide, by decide, claim_C6 [10, 11, 12] 4 2 (by decide) (by decide)⟩

/-- Clamping invalid `page`/`limit` to the defaults is idempotent: any call
equals the call on the clamped values. -/
lemma paginate_clamp {α : Type} (seq : List α) (page limit : Int) :
    paginate seq page limit
      = paginate seq (if page ≤ 0 then 1 else page) (if limit ≤ 0 then 10 else limit) := by
  unfold paginate
  by_cases hp : page ≤ 0 <;> by_cases hl : limit ≤ 0 <;> simp [hp, hl]

/-- Claim C8: listing either collection with zero or negative `page` or
`limit` does not fail — the invalid value is clamped to its default
(page = 1, limit = 10) and the listing equals the one produced by the
clamped values. -/
theorem claim_C8 (st : TrustState) (page limit : Int) (h : page ≤ 0 ∨ limit ≤ 0) :
    TrustService.getVerifiableTrustCredential none page limit st
        = TrustService.getVerifiableTrustCredential none (if page ≤ 0 then 1 else page)
            (if limit ≤ 0 then 10 else limit) st
      ∧ TrustService.getJsonSchemaCredential none page limit st
          = TrustService.getJsonSchemaCredential none (if page ≤ 0 then 1 else page)
              (if limit ≤ 0 then 10 else limit) st
      ∧ (∃ items total, TrustService.getVerifiableTrustCredential none page limit st
            = .ok (.page items total))
      ∧ (∃ items total, TrustService.getJsonSchemaCredential none page limit st
            = .ok (.page items total)) := by
  refine ⟨?_, ?_, ⟨(paginate st.vtc page limit).1, (paginate st.vtc page limit).2, rfl⟩,
    ⟨(paginate st.vtjsc page limit).1, (paginate st.vtjsc page limit).2, rfl⟩⟩
  · simp only [TrustService.getVerifiableTrustCredential]
    rw [paginate_clamp]
  · simp only [TrustService.getJsonSchemaCredential]
    rw [paginate_clamp]

theorem claim_C8_witness :
    ((-1 : Int) ≤ 0 ∨ (0 : Int) ≤ 0) ∧
    (TrustService.getVerifiableTrustCredential none (-1) 0 stW2
        = TrustService.getVerifiableTrustCredential none (if (-1 : Int) ≤ 0 then 1 else -1)
            (if (0 : Int) ≤ 0 then 10 else 0) stW2
      ∧ TrustService.getJsonSchemaCredential none (-1) 0 stW2
          = TrustService.getJsonSchemaCredential none (if (-1 : Int) ≤ 0 then 1 else -1)
              (if (0 : Int) ≤ 0 then 10 else 0) stW2
      ∧ (∃ items total, TrustService.getVerifiableTrustCredential none (-1) 0 stW2
            = .ok (.page items total))
      ∧ (∃ items total, TrustService.getJsonSchemaCredential none (-1) 0 stW2
            = .ok (.page items total))) :=
  ⟨by decide, claim_C8 stW2 (-1) 0 (by decide)⟩

/-- Appending a fixed prefix and a fixed suffix is injective on strings. -/
lemma string_append_inj (p s : String) (n₁ n₂ : String)
    (h : p ++ n₁ ++ s = p ++ n₂ ++ s) : n₁ = n₂ := by
  have hd := congrArg String.data h
  simp only [String.data_append] at hd
  simp at hd
  exact String.ext hd

/-- Claim C9: the derived ids are deterministic functions of the lower-cased
`schemaBaseId` — inputs differing only in letter case produce the same id
(and the whole `createJsc` call coincides), equal normalized base ids give
equal ids, and distinct normalized base ids give distinct ids (the
derivations are injective). -/
theorem claim_C9 (env : Env) (b₁ b₂ : String) :
    (toLocaleLowerCase b₁ = toLocaleLowerCase b₂ →
      deriveJscId env (toLocaleLowerCase b₁) = deriveJscId env (toLocaleLowerCase b₂)
        ∧ deriveVtcId env (toLocaleLowerCase b₁) = deriveVtcId env (toLocaleLowerCase b₂)
        ∧ ∀ now ref st, TrustController.createJsc env now b₁ ref st
            = TrustController.createJsc env now b₂ ref st)
      ∧ (∀ n₁ n₂ : String,
          (deriveJscId env n₁ = deriveJscId env n₂ ↔ n₁ = n₂)
            ∧ (deriveVtcId env n₁ = deriveVtcId env n₂ ↔ n₁ = n₂)) := by
  constructor
  · intro hlow
    refine ⟨by rw [hlow], by rw [hlow], ?_⟩
    intro now ref st
    simp [TrustController.createJsc, hlow]
  · intro n₁ n₂
    constructor
    · constructor
      · intro h
        exact string_append_inj (env.baseUrl ++ "/vt/schemas-") "-jsc.json" n₁ n₂ h
      · intro h
        rw [deriveJscId, deriveJscId, h]
    · constructor
      · intro h
        exact string_append_inj (env.baseUrl ++ "/vt/schemas-") "-c-vp.json" n₁ n₂ h
      · intro h
        rw [deriveVtcId, deriveVtcId, h]

theorem claim_C9_witness :
    toLocaleLowerCase "Org" = toLocaleLowerCase "oRG" ∧
    (deriveJscId envGood (toLocaleLowerCase "Org") = deriveJscId envGood (toLocaleLowerCase "oRG")
      ∧ deriveVtcId envGood (toLocaleLowerCase "Org")
          = deriveVtcId envGood (toLocaleLowerCase "oRG")
      ∧ ∀ now ref st, TrustController.createJsc envGood now "Org" ref st
          = TrustController.createJsc envGood now "oRG" ref st) :=
  ⟨by decide, (claim_C9 envGood "Org" "oRG").1 (by decide)⟩

/-- Claim C10: `revokeCredential` unconditionally fails with HTTP 501 and
the message from the source, and leaves both collections unchanged. -/
theorem claim_C10 (st : TrustState) :
    TrustController.revokeCredential st
        = (st, .error { status := 501, message := "This method is not implemented yet" })
      ∧ (TrustController.revokeCredential st).1.vtjsc = st.vtjsc
      ∧ (TrustController.revokeCredential st).1.vtc = st.vtc :=
  ⟨rfl, rfl, rfl⟩

end VsAgent
